import Mathlib

/-!
Verification development for the `cligen` code generator.

The repository is a Go source-to-source generator: it locates a struct type
declaration matching a command name, extracts per-field metadata from `cli`
struct tags, parses a small directive micro-language out of those tags, and
renders a CLI front end from a template.

Go strings are embedded as `List Char` (one entry per rune); Go's byte-length
`len` is embedded as `goLen`, the sum of the UTF-8 sizes of the runes, so the
two notions of length agree with the source on all inputs.  Each definition
below carries a comment naming the Go function it embeds.
-/

/-- Strings of the embedded program: a Go string as its list of runes. -/
abbrev Str := List Char

/-- Coercion from a Lean string literal to the embedded string type. -/
def str (s : String) : Str := s.data

/-- Embeds Go `unicode.IsSpace` restricted to the code points it recognises
in the Latin-1 range: space, \t, \n, \v, \f, \r, NEL (U+0085) and NBSP
(U+00A0). -/
def goIsSpace (c : Char) : Bool :=
  c == ' ' || c == '\t' || c == '\n' || c.toNat == 0x0b || c.toNat == 0x0c ||
  c == '\r' || c.toNat == 0x85 || c.toNat == 0xA0

/-- Embeds Go `strings.TrimSpace`: drop leading and trailing white space. -/
def trimSpace (s : Str) : Str :=
  ((s.dropWhile goIsSpace).reverse.dropWhile goIsSpace).reverse

/-- Embeds Go `strings.Split` with a one-rune separator.  As in Go, the
result always has at least one element and splitting the empty string
yields `[""]`. -/
def splitOnChar (sep : Char) : Str → List Str
  | [] => [[]]
  | c :: cs =>
    match splitOnChar sep cs with
    | [] => [[]]
    | t :: ts => if c == sep then [] :: t :: ts else (c :: t) :: ts

/-- Embeds Go `strings.HasPrefix`. -/
def goHasPref (p s : Str) : Bool := p.isPrefixOf s

/-- Embeds Go `strings.TrimPrefix`: drop `p` from the front of `s` when it is
a prefix, otherwise return `s` unchanged. -/
def goTrimPref (p s : Str) : Str := if goHasPref p s then s.drop p.length else s

/-- Embeds Go `strings.ToLower` (the two agree on ASCII, which is all the
generator's naming convention relies on). -/
def goToLower (s : Str) : Str := s.map Char.toLower

/-- Embeds Go `strings.Contains`: substring test. -/
def goContains (s sub : Str) : Bool :=
  (List.range (s.length + 1)).any fun i => sub.isPrefixOf (s.drop i)

/-- Embeds Go `len` on strings: the byte length, i.e. the sum of the UTF-8
sizes of the runes. -/
def goLen (s : Str) : Nat := (s.map Char.utf8Size).sum

/-- Embeds Go `strings.Trim(s, cutset)` for a one-rune cutset: drop that rune
from both ends (used for the backquotes around a struct tag literal). -/
def trimCharBoth (cut : Char) (s : Str) : Str :=
  ((s.dropWhile (· == cut)).reverse.dropWhile (· == cut)).reverse

/-- Embeds Go `strings.TrimSuffix`. -/
def trimSuffixStr (suf s : Str) : Str :=
  if suf.isSuffixOf s then s.take (s.length - suf.length) else s

/-!
Embedding of `reflect.StructTag.Lookup` / `.Get`, the standard-library struct
tag scanner used by `Generator.extractTag`: a tag is a sequence of
`key:"value"` pairs separated by spaces, and the value of the requested key
is unquoted before it is returned.
-/

/-- Hex digit value, used by the escape decoder of `unquoteChars`. -/
def hexVal (c : Char) : Option Nat :=
  if '0' ≤ c ∧ c ≤ '9' then some (c.toNat - '0'.toNat)
  else if 'a' ≤ c ∧ c ≤ 'f' then some (c.toNat - 'a'.toNat + 10)
  else if 'A' ≤ c ∧ c ≤ 'F' then some (c.toNat - 'A'.toNat + 10)
  else none

/-- Octal digit value, used by the escape decoder of `unquoteChars`. -/
def octVal (c : Char) : Option Nat :=
  if '0' ≤ c ∧ c ≤ '7' then some (c.toNat - '0'.toNat) else none

/-- Decode a list of digit values in the given base to a code point. -/
def digitsToNat (base : Nat) (ds : List Nat) : Nat :=
  ds.foldl (fun acc d => acc * base + d) 0

/-- Turn a code point into a `Char` when it is a valid scalar value,
mirroring the validity check of Go's `strconv` unescaper. -/
def charOfCode (n : Nat) : Option Char :=
  if n.isValidChar then some (Char.ofNat n) else none

/-- Embeds the body loop of Go `strconv.Unquote` on the interior of a
double-quoted string: process escape sequences, reject a stray quote or
newline.  `\x`, octal and `\u`/`\U` escapes decode to the corresponding code
point. -/
def unquoteChars : Str → Option Str
  | [] => some []
  | '"' :: _ => none
  | '\n' :: _ => none
  | '\\' :: rest =>
    match rest with
    | 'a' :: r => (unquoteChars r).map (fun t => Char.ofNat 0x07 :: t)
    | 'b' :: r => (unquoteChars r).map (fun t => Char.ofNat 0x08 :: t)
    | 'f' :: r => (unquoteChars r).map (fun t => Char.ofNat 0x0c :: t)
    | 'n' :: r => (unquoteChars r).map (fun t => '\n' :: t)
    | 'r' :: r => (unquoteChars r).map (fun t => '\r' :: t)
    | 't' :: r => (unquoteChars r).map (fun t => '\t' :: t)
    | 'v' :: r => (unquoteChars r).map (fun t => Char.ofNat 0x0b :: t)
    | '\\' :: r => (unquoteChars r).map (fun t => '\\' :: t)
    | '\'' :: r => (unquoteChars r).map (fun t => '\'' :: t)
    | '"' :: r => (unquoteChars r).map (fun t => '"' :: t)
    | 'x' :: h1 :: h2 :: r =>
      match hexVal h1, hexVal h2 with
      | some d1, some d2 =>
        match charOfCode (d1 * 16 + d2) with
        | some c => (unquoteChars r).map (fun t => c :: t)
        | none => none
      | _, _ => none
    | 'u' :: h1 :: h2 :: h3 :: h4 :: r =>
      match hexVal h1, hexVal h2, hexVal h3, hexVal h4 with
      | some d1, some d2, some d3, some d4 =>
        match charOfCode (digitsToNat 16 [d1, d2, d3, d4]) with
        | some c => (unquoteChars r).map (fun t => c :: t)
        | none => none
      | _, _, _, _ => none
    | o1 :: o2 :: o3 :: r =>
      match octVal o1, octVal o2, octVal o3 with
      | some d1, some d2, some d3 =>
        match charOfCode (digitsToNat 8 [d1, d2, d3]) with
        | some c => (unquoteChars r).map (fun t => c :: t)
        | none => none
      | _, _, _ => none
    | _ => none
  | c :: rest => (unquoteChars rest).map (fun t => c :: t)

/-- Embeds Go `strconv.Unquote` on a double-quoted literal: strip the
surrounding quotes and decode the interior. -/
def unquote (s : Str) : Option Str :=
  match s with
  | '"' :: rest =>
    match rest.reverse with
    | '"' :: mid => unquoteChars mid.reverse
    | _ => none
  | _ => none

/-- Character class of a struct tag key, from `reflect.StructTag.Lookup`:
anything above space except `:`, `"` and DEL. -/
def isTagNameChar (c : Char) : Bool :=
  c > ' ' && c != ':' && c != '"' && c.toNat != 0x7f

/-- Scan the interior of a quoted tag value (the part after the opening
quote), as the quote-scanning loop of `reflect.StructTag.Lookup` does:
return the length of the value up to and including the closing quote,
skipping backslash-escaped characters. -/
def scanQuoted : Str → Option Nat
  | [] => none
  | '"' :: _ => some 1
  | '\\' :: [] => none
  | '\\' :: _ :: rest => (scanQuoted rest).map (· + 2)
  | _ :: rest => (scanQuoted rest).map (· + 1)

/-- Embeds the loop of `reflect.StructTag.Lookup`.  The fuel argument only
bounds the number of `key:"value"` pairs scanned; it is instantiated with
the tag length, which the pair count never exceeds. -/
def tagLookupAux : Nat → Str → Str → Option Str
  | 0, _, _ => none
  | fuel + 1, tag, key =>
    let t1 := tag.dropWhile (· == ' ')
    if t1.isEmpty then none
    else
      let nameLen := (t1.takeWhile isTagNameChar).length
      if nameLen = 0 then none
      else if h : nameLen + 1 < t1.length then
        if t1.get ⟨nameLen, by omega⟩ == ':' ∧ t1.get ⟨nameLen + 1, h⟩ == '"' then
          let name := t1.take nameLen
          let t2 := t1.drop (nameLen + 1)
          match scanQuoted (t2.drop 1) with
          | none => none
          | some n =>
            let qvalue := t2.take (n + 1)
            let t3 := t2.drop (n + 1)
            if name == key then unquote qvalue
            else tagLookupAux fuel t3 key
        else none
      else none

/-- Embeds `Generator.extractTag` (the `reflect.StructTag.Get` variant):
returns the value of `key` in the struct tag, or the empty string when the
key is absent or the tag is malformed. -/
def extractTag (tag key : Str) : Str :=
  (tagLookupAux (tag.length + 1) tag key).getD []

/-!
The field descriptor and the directive parser `Generator.parseFieldTag`.
-/

/-- Embeds the Go struct `FieldInfo` (current variant, which includes the
`Usage` member).  Zero values as in Go: empty strings, `false`, nil slice. -/
structure FieldInfo where
  name : Str
  type : Str
  cliName : Str
  shortFlag : Str := []
  defaultValue : Str := []
  required : Bool := false
  options : List Str := []
  help : Str := []
  usage : Str := []
deriving Repr, DecidableEq

/-- The descriptor `parseFieldTag` starts from: only `Name`, `Type` and the
default CLI name (the lowercased field name) are set. -/
def defaultFieldInfo (fieldName fieldType : Str) : FieldInfo :=
  { name := fieldName, type := fieldType, cliName := goToLower fieldName }

/-- Embeds the classification chain in the loop body of
`Generator.parseFieldTag`, applied to an already-trimmed token. -/
def classifyPart (field : FieldInfo) (part : Str) : FieldInfo :=
  if goLen part = 1 then
    { field with shortFlag := part }
  else if goHasPref (str "default:") part then
    { field with defaultValue := goTrimPref (str "default:") part }
  else if part = str "required" then
    { field with required := true }
  else if goHasPref (str "options:") part then
    { field with options := splitOnChar '|' (goTrimPref (str "options:") part) }
  else if goHasPref (str "usage:") part then
    { field with usage := goTrimPref (str "usage:") part }
  else
    field

/-- One iteration of the token loop of `Generator.parseFieldTag`: the raw
token is trimmed, then classified. -/
def applyPart (field : FieldInfo) (rawPart : Str) : FieldInfo :=
  classifyPart field (trimSpace rawPart)

/-- Embeds `Generator.parseFieldTag`: extract the `cli` tag value, split it
on commas, use a non-empty token 0 as the CLI name verbatim, and run the
classification loop over the remaining tokens. -/
def parseFieldTag (fieldName fieldType tag : Str) : FieldInfo :=
  let field := defaultFieldInfo fieldName fieldType
  if tag = [] then field
  else
    let cliTag := extractTag tag (str "cli")
    if cliTag = [] then field
    else
      match splitOnChar ',' cliTag with
      | [] => field
      | p0 :: rest =>
        let field := if p0 ≠ [] then { field with cliName := p0 } else field
        rest.foldl applyPart field


/-!
The declaration tree handed to the generator, and the two consumers of it:
the struct-field walker `Generator.parseStructFields` / `getTypeString` and
the declaration locator inside `Generator.Generate`.
-/

/-- Embeds the `ast.Expr` shapes distinguished by `Generator.getTypeString`:
a plain identifier, an array type, a star (pointer) type; every other
expression shape is collapsed to `other`, exactly as the `default` case of
the source collapses them. -/
inductive GoType where
  | ident (name : Str)
  | array (elt : GoType)
  | star (x : GoType)
  | other
deriving Repr, DecidableEq

/-- Embeds `Generator.getTypeString`. -/
def getTypeString : GoType → Str
  | .ident n => n
  | .array e => str "[]" ++ getTypeString e
  | .star e => str "*" ++ getTypeString e
  | .other => str "interface\x7b\x7d"

/-- Embeds one `ast.Field` of a struct: its (possibly empty) name list, its
type expression and its optional tag literal (still carrying the backquotes,
as `field.Tag.Value` does). -/
structure GoField where
  names : List Str
  type : GoType
  tag : Option Str
deriving Repr, DecidableEq

/-- The tag string `parseStructFields` passes on: empty when the field has
no tag, otherwise the tag literal with the backquotes trimmed. -/
def tagOfField (f : GoField) : Str :=
  match f.tag with
  | none => []
  | some t => trimCharBoth '\x60' t

/-- Embeds `Generator.parseStructFields`: walk the fields in order, skip
fields with no explicit name, and parse each named field's tag. -/
def parseStructFields (fields : List GoField) : List FieldInfo :=
  fields.filterMap fun f =>
    match f.names with
    | [] => none
    | n :: _ => some (parseFieldTag n (getTypeString f.type) (tagOfField f))

/-- Embeds one `ast.TypeSpec`: its name and, when its type is a struct
type, that struct's field list. -/
structure GoTypeSpec where
  name : Str
  body : Option (List GoField)
deriving Repr, DecidableEq

/-- Embeds one top-level declaration: a `type` declaration group with its
specs, or any other declaration (ignored by the locator's callback). -/
inductive GoDecl where
  | typeDecl (specs : List GoTypeSpec)
  | otherDecl
deriving Repr, DecidableEq

/-- Embeds an `ast.File` as its ordered top-level declaration list. -/
structure GoFile where
  decls : List GoDecl
deriving Repr, DecidableEq

/-- The naming test of the locator in `Generator.Generate`: the spec is a
struct type whose identifier case-insensitively contains the command name
and the substring "args". -/
def matchSpec (command : Str) (spec : GoTypeSpec) : Bool :=
  spec.body.isSome &&
  goContains (goToLower spec.name) (goToLower command) &&
  goContains (goToLower spec.name) (str "args")

/-- One invocation of the `ast.Inspect` callback on a `type` declaration
group: the loop over its specs records the first matching spec and returns
`false` (which only stops the descent into this group). -/
def declMatch (command : Str) (d : GoDecl) : Option (Str × List GoField) :=
  match d with
  | .typeDecl specs =>
    specs.findSome? fun spec =>
      if matchSpec command spec then some (spec.name, spec.body.getD []) else none
  | .otherDecl => none

/-- Embeds the locator of `Generator.Generate`: the `ast.Inspect` callback
runs over every top-level declaration in source order — returning `false`
after a match prunes only that declaration's subtree, so a later matching
declaration group overwrites the recorded `targetStruct`/`structName`.  The
result is therefore the first matching spec of the last matching group. -/
def findTargetStruct (file : GoFile) (command : Str) : Option (Str × List GoField) :=
  file.decls.foldl
    (fun acc d =>
      match declMatch command d with
      | some r => some r
      | none => acc)
    none

/-!
File-system model for the emitter claims.  The spec's resource model (§5) is
single-threaded with no failure injection, so file creation always succeeds
here; only existence and contents matter to the claims.
-/

/-- A file system: an association of paths to file contents. -/
abbrev FS := List (Str × Str)

/-- Contents at a path, `none` when the path does not exist (the `os.Stat`
error case). -/
def fsLookup (fs : FS) (p : Str) : Option Str :=
  (fs.find? fun e => e.1 == p).map (·.2)

/-- Embeds `os.Create` + a full write: the path now holds exactly the new
contents (truncating any previous file). -/
def fsWrite (fs : FS) (p c : Str) : FS :=
  (p, c) :: fs.filter fun e => !(e.1 == p)

/-- The stub path built by `Generator.generateImplementationStub`:
`fmt.Sprintf("%s/%s_impl.go", dir, g.Command)` with
`dir := strings.TrimSuffix(g.OutputFile, "/main.go")`. -/
def implStubPath (outputFile command : Str) : Str :=
  trimSuffixStr (str "/main.go") outputFile ++ str "/" ++ command ++ str "_impl.go"

/-- Embeds `Generator.generateImplementationStub` as a file-system
transformer.  The rendered stub text is a parameter (`content`): the stub
template lives in an embedded asset outside the analyzed tree, and no claim
depends on its text — the claims below hold for every possible rendering.
When `os.Stat` finds the path, the function returns `nil` immediately;
otherwise it writes the rendered stub.  The second component is the
returned error. -/
def generateImplementationStub (content : Str) (fs : FS) (outputFile command : Str) :
    FS × Option Str :=
  let implPath := implStubPath outputFile command
  if (fsLookup fs implPath).isSome then (fs, none)
  else (fsWrite fs implPath content, none)

/-!
The code emitter of the inline-template generator variant:
`Generator.generateCLICode` rendering `cliTemplate` with the helpers
`title` (= `strings.Title`) and `join` (= `strings.Join`), plus the
`printf "%q"` quoting of the help string (= `strconv.Quote`).
-/

/-- Embeds Go `strings.Join`. -/
def joinStrs (sep : Str) (xs : List Str) : Str := List.intercalate sep xs

/-- Embeds the ASCII branch of the `isSeparator` helper of
`strings.Title`: letters, digits and underscore are not separators. -/
def goIsSepChar (c : Char) : Bool :=
  !(('a' ≤ c && c ≤ 'z') || ('A' ≤ c && c ≤ 'Z') || ('0' ≤ c && c ≤ '9') || c == '_')

/-- Worker of `goTitle`, carrying the previous rune as `strings.Title`'s
closure does. -/
def goTitleAux : Char → Str → Str
  | _, [] => []
  | prev, c :: rest => (if goIsSepChar prev then c.toUpper else c) :: goTitleAux c rest

/-- Embeds Go `strings.Title`: upper-case every rune that follows a
separator (the previous rune starts out as a space). -/
def goTitle (s : Str) : Str := goTitleAux ' ' s

/-- Hex digit rune, used by the `\x` escapes of `goQuote`. -/
def hexDigitChar (n : Nat) : Char :=
  if n < 10 then Char.ofNat ('0'.toNat + n) else Char.ofNat ('a'.toNat + n - 10)

/-- Escape one rune as Go `strconv.Quote` does: standard escapes for quote,
backslash and the named control characters, `\x` escapes for the remaining
control characters, everything printable passes through. -/
def quoteChar (c : Char) : Str :=
  if c = '"' then str "\\\""
  else if c = '\\' then str "\\\\"
  else if c = '\n' then str "\\n"
  else if c = '\t' then str "\\t"
  else if c = '\r' then str "\\r"
  else if c.toNat == 0x07 then str "\\a"
  else if c.toNat == 0x08 then str "\\b"
  else if c.toNat == 0x0b then str "\\v"
  else if c.toNat == 0x0c then str "\\f"
  else if c.toNat < 0x20 || c.toNat == 0x7f then
    str "\\x" ++ [hexDigitChar (c.toNat / 16), hexDigitChar (c.toNat % 16)]
  else [c]

/-- Embeds Go `strconv.Quote` (the template's `printf "%q"`). -/
def goQuote (s : Str) : Str := '"' :: (s.map quoteChar).flatten ++ ['"']

/-- The per-field help string computed by the `$help` variable of
`cliTemplate`: the CLI name, with ` (required)` appended for required
fields and the `|`-joined allowed values bracketed after it. -/
def helpFor (f : FieldInfo) : Str :=
  let h1 := if f.required then f.cliName ++ str " (required)" else f.cliName
  if f.options ≠ [] then h1 ++ str " [" ++ joinStrs (str "|") f.options ++ str "]"
  else h1

/-- The flag-registration text one field contributes inside the
`// Define flags` range of `cliTemplate`: one `pflag.<T>VarP` line chosen by
the type string; a field of any other type contributes nothing.  For a
`[]string` field with a default, the template's `[]string{{"{{.DefaultValue}}"}}`
action emits the string constant `{{.DefaultValue}}` literally, so that is
what is rendered. -/
def flagLine (f : FieldInfo) : Str :=
  let h := helpFor f
  if f.type = str "string" then
    str "pflag.StringVarP(&cmd." ++ f.name ++ str ", \"" ++ f.cliName ++ str "\", \"" ++
    f.shortFlag ++ str "\", \"" ++ f.defaultValue ++ str "\", \"" ++ h ++ str "\")\n\t"
  else if f.type = str "int" then
    str "pflag.IntVarP(&cmd." ++ f.name ++ str ", \"" ++ f.cliName ++ str "\", \"" ++
    f.shortFlag ++ str "\", " ++ (if f.defaultValue ≠ [] then f.defaultValue else str "0") ++
    str ", \"" ++ h ++ str "\")\n\t"
  else if f.type = str "bool" then
    str "pflag.BoolVarP(&cmd." ++ f.name ++ str ", \"" ++ f.cliName ++ str "\", \"" ++
    f.shortFlag ++ str "\", " ++ (if f.defaultValue ≠ [] then f.defaultValue else str "false") ++
    str ", \"" ++ h ++ str "\")\n\t"
  else if f.type = str "[]string" then
    str "pflag.StringSliceVarP(&cmd." ++ f.name ++ str ", \"" ++ f.cliName ++ str "\", \"" ++
    f.shortFlag ++ str "\", " ++
    (if f.defaultValue ≠ [] then str "[]string\x7b\x7b.DefaultValue\x7d\x7d" else str "nil") ++
    str ", \"" ++ h ++ str "\")\n\t"
  else []

/-- The required-field validation text one field contributes inside the
`// Validate required fields` range of `cliTemplate`. -/
def requiredBlock (f : FieldInfo) : Str :=
  if f.required then
    str "if cmd." ++ f.name ++ str " == " ++
    (if f.type = str "string" then str "\"\" "
     else if f.type = str "int" then str "0 "
     else if f.type = str "bool" then str "false "
     else str "nil ") ++
    str "\x7b\n\t\tfmt.Fprintf(os.Stderr, \"Error: --%s is required\\n\", \"" ++ f.cliName ++
    str "\")\n\t\tpflag.Usage()\n\t\tos.Exit(1)\n\t\x7d\n\t"
  else []

/-- The allowed-values validation text one field contributes inside the
`// Validate options` range of `cliTemplate`. -/
def optionsBlock (f : FieldInfo) : Str :=
  if f.options ≠ [] then
    str "if cmd." ++ f.name ++ str " != \"\" \x7b\n\t\tvalidOptions := []string\x7b " ++
    (f.options.map (fun o => str "\"" ++ o ++ str "\", ")).flatten ++
    str " \x7d\n\t\tvalid := false\n\t\tfor _, opt := range validOptions \x7b\n\t\t\tif cmd." ++
    f.name ++
    str " == opt \x7b\n\t\t\t\tvalid = true\n\t\t\t\tbreak\n\t\t\t\x7d\n\t\t\x7d\n\t\tif !valid \x7b\n\t\t\tfmt.Fprintf(os.Stderr, \"Error: --%s must be one of: %s\\n\", \"" ++
    f.cliName ++
    str "\", strings.Join(validOptions, \", \"))\n\t\t\tpflag.Usage()\n\t\t\tos.Exit(1)\n\t\t\x7d\n\t\x7d\n\t"
  else []

/-- Embeds the expansion of `cliTemplate` on the template data
`{Command, Help, StructName, Fields}`.  The template never references
`.StructName`, so the rendering is a function of the command, the help
string and the field list alone. -/
def renderCLITemplate (command help : Str) (fields : List FieldInfo) : Str :=
  let t := goTitle command
  str "// Code generated by cligen. DO NOT EDIT.\npackage main\n\nimport (\n\t\"fmt\"\n\t\"os\"\n\t\"strings\"\n\n\t\"github.com/spf13/pflag\"\n)\n\n// " ++
  t ++ str "Command represents the " ++ command ++ str " command\ntype " ++ t ++
  str "Command struct \x7b\n\t" ++
  (fields.map (fun f => f.name ++ str " " ++ f.type ++ str "\n\t")).flatten ++
  str "\n\x7d\n\n// Execute runs the " ++ command ++ str " command\nfunc (c *" ++ t ++
  str "Command) Execute() error \x7b\n\t// TODO: Implement your command logic here\n\tfmt.Printf(\"Executing " ++
  command ++ str " command with args: %+v\\n\", c)\n\treturn nil\n\x7d\n\n// New" ++ t ++
  str "Command creates and configures the " ++ command ++ str " command\nfunc New" ++ t ++
  str "Command() *" ++ t ++ str "Command \x7b\n\tcmd := &" ++ t ++
  str "Command\x7b\x7d\n\t\n\t// Define flags\n\t" ++
  (fields.map flagLine).flatten ++
  str "\n\t\n\t// Parse flags\n\tpflag.Parse()\n\t\n\t// Validate required fields\n\t" ++
  (fields.map requiredBlock).flatten ++
  str "\n\t\n\t// Validate options\n\t" ++
  (fields.map optionsBlock).flatten ++
  str "\n\t\n\treturn cmd\n\x7d\n\nfunc main() \x7b\n\t// Check for help flags\n\tif len(os.Args) > 1 && (os.Args[1] == \"--help\" || os.Args[1] == \"-h\") \x7b\n\t\tfmt.Println(" ++
  goQuote help ++
  str ")\n\t\tfmt.Println()\n\t\tpflag.Usage()\n\t\treturn\n\t\x7d\n\t\n\tcmd := New" ++ t ++
  str "Command()\n\tif err := cmd.Execute(); err != nil \x7b\n\t\tfmt.Fprintf(os.Stderr, \"Error: %v\\n\", err)\n\t\tos.Exit(1)\n\t\x7d\n\x7d\n"

/-- Embeds `Generator.generateCLICode` of the inline-template variant as a
file-system transformer: create the output file and write the rendered
template into it.  `_structName` mirrors the unused `StructName` member of
the template data. -/
def generateCLICode (fs : FS) (command help _structName : Str) (fields : List FieldInfo)
    (outputFile : Str) : FS × Option Str :=
  (fsWrite fs outputFile (renderCLITemplate command help fields), none)

/-!
Helper lemmas about the token-classification loop.
-/

/-!
Sanity checks of the embedding against the repository's own example
annotations (from `example.go` and the README).
-/

example : parseFieldTag (str "Port") (str "int") (str "cli:\"port,p,default:8080\"") =
    { name := str "Port", type := str "int", cliName := str "port",
      shortFlag := str "p", defaultValue := str "8080" } := by decide

example : parseFieldTag (str "Env") (str "string")
    (str "cli:\"env,e,required,options:dev|staging|prod|local\"") =
    { name := str "Env", type := str "string", cliName := str "env",
      shortFlag := str "e", required := true,
      options := [str "dev", str "staging", str "prod", str "local"] } := by decide

example : parseFieldTag (str "Tags") (str "[]string") (str "") =
    { name := str "Tags", type := str "[]string", cliName := str "tags" } := by decide

/-- The classification chain never touches the CLI name. -/
theorem classifyPart_cliName (f : FieldInfo) (p : Str) :
    (classifyPart f p).cliName = f.cliName := by
  unfold classifyPart
  repeat' split
  all_goals rfl

/-- A whole classification pass never touches the CLI name. -/
theorem foldl_applyPart_cliName (l : List Str) (f : FieldInfo) :
    (l.foldl applyPart f).cliName = f.cliName := by
  induction l generalizing f with
  | nil => rfl
  | cons u l ih => simpa [applyPart, ih] using classifyPart_cliName f (trimSpace u)

/-- A token whose trimmed form is not a single byte leaves the short flag
unchanged. -/
theorem applyPart_shortFlag_of_ne (f : FieldInfo) (u : Str)
    (h : goLen (trimSpace u) ≠ 1) : (applyPart f u).shortFlag = f.shortFlag := by
  unfold applyPart classifyPart
  rw [if_neg h]
  repeat' split
  all_goals rfl

/-- A token whose trimmed form is a single byte sets the short flag to it. -/
theorem applyPart_shortFlag_of_one (f : FieldInfo) (u : Str)
    (h : goLen (trimSpace u) = 1) : (applyPart f u).shortFlag = trimSpace u := by
  unfold applyPart classifyPart
  rw [if_pos h]

/-- Short flag survives a run of tokens none of which trims to one byte. -/
theorem foldl_shortFlag_preserved (l : List Str) (f : FieldInfo)
    (h : ∀ u ∈ l, goLen (trimSpace u) ≠ 1) :
    (l.foldl applyPart f).shortFlag = f.shortFlag := by
  induction l generalizing f with
  | nil => rfl
  | cons u l ih =>
    rw [List.foldl_cons, ih _ (fun x hx => h x (List.mem_cons_of_mem u hx)),
      applyPart_shortFlag_of_ne f u (h u (List.mem_cons_self u l))]

/-- A token whose trimmed form does not start with `default:` leaves the
default value unchanged. -/
theorem applyPart_defaultValue_of_ne (f : FieldInfo) (u : Str)
    (h : goHasPref (str "default:") (trimSpace u) = false) :
    (applyPart f u).defaultValue = f.defaultValue := by
  unfold applyPart classifyPart
  repeat' split
  all_goals first | rfl | (exact absurd (by assumption) (by simp [h]))

/-- Default value survives a run of tokens none of which trims to a
`default:`-prefixed form. -/
theorem foldl_defaultValue_preserved (l : List Str) (f : FieldInfo)
    (h : ∀ u ∈ l, goHasPref (str "default:") (trimSpace u) = false) :
    (l.foldl applyPart f).defaultValue = f.defaultValue := by
  induction l generalizing f with
  | nil => rfl
  | cons u l ih =>
    rw [List.foldl_cons, ih _ (fun x hx => h x (List.mem_cons_of_mem u hx)),
      applyPart_defaultValue_of_ne f u (h u (List.mem_cons_self u l))]

/-- Byte length distributes over concatenation. -/
theorem goLen_append (a b : Str) : goLen (a ++ b) = goLen a + goLen b := by
  simp [goLen]

/-- A token trimming to `default:X` sets the default value to exactly `X`. -/
theorem applyPart_defaultValue_set (f : FieldInfo) (u X : Str)
    (h : trimSpace u = str "default:" ++ X) :
    (applyPart f u).defaultValue = X := by
  unfold applyPart classifyPart
  rw [h]
  have hlen : goLen (str "default:" ++ X) ≠ 1 := by
    rw [goLen_append]
    have : goLen (str "default:") = 8 := by decide
    omega
  rw [if_neg hlen]
  have hpref : goHasPref (str "default:") (str "default:" ++ X) = true := by
    simp [goHasPref, List.isPrefixOf_iff_prefix]
  rw [if_pos hpref]
  show goTrimPref (str "default:") (str "default:" ++ X) = X
  simp [goTrimPref, goHasPref, List.isPrefixOf_iff_prefix, List.prefix_append,
    List.drop_left]

/-- A token whose trimmed form matches none of the five directive patterns
is a no-op for the whole descriptor. -/
theorem applyPart_unrecognized (f : FieldInfo) (u : Str)
    (h1 : goLen (trimSpace u) ≠ 1)
    (h2 : goHasPref (str "default:") (trimSpace u) = false)
    (h3 : trimSpace u ≠ str "required")
    (h4 : goHasPref (str "options:") (trimSpace u) = false)
    (h5 : goHasPref (str "usage:") (trimSpace u) = false) :
    applyPart f u = f := by
  unfold applyPart classifyPart
  rw [if_neg h1, if_neg (by simp [h2]), if_neg h3, if_neg (by simp [h4]),
    if_neg (by simp [h5])]

/-- Unfolding lemma for `parseFieldTag` on a tag whose `cli` value is
present: the result is the classification fold over the tokens after the
first, starting from the descriptor whose CLI name token 0 decides. -/
theorem parseFieldTag_eq_foldl (n ty tag v p0 : Str) (rest : List Str)
    (htag : tag ≠ []) (hv : extractTag tag (str "cli") = v) (hvne : v ≠ [])
    (hsplit : splitOnChar ',' v = p0 :: rest) :
    parseFieldTag n ty tag =
      rest.foldl applyPart
        (if p0 ≠ [] then { defaultFieldInfo n ty with cliName := p0 }
         else defaultFieldInfo n ty) := by
  unfold parseFieldTag
  rw [if_neg htag, hv, if_neg hvne, hsplit]

/-- The one-element split of the empty string. -/
theorem splitOnChar_nil (c : Char) : splitOnChar c [] = [[]] := rfl

/-!
Claim theorems.
-/

/-- A declaration matching the `serve` naming convention, appearing first. -/
def serveArgsFirst : GoTypeSpec := { name := str "ServeArgs", body := some [] }

/-- A second declaration matching the same convention, appearing later. -/
def serveArgsSecond : GoTypeSpec := { name := str "ServeArgsV2", body := some [] }

/-- A source file holding the two matching declarations in order. -/
def twoMatchFile : GoFile :=
  { decls := [.typeDecl [serveArgsFirst], .typeDecl [serveArgsSecond]] }

/-- C1: the claim says the locator selects the first matching declaration
and a later match is never selected.  The code does the opposite: on a file
whose first and second declarations both match the `serve` naming
convention, the locator returns the second one, because the `ast.Inspect`
callback's `false` only prunes the matched declaration's subtree and a
later match overwrites the recorded struct.  This contradicts the clear
intent of the `return false` (stop scanning at the first match). -/
theorem locator_returns_later_matching_declaration :
    matchSpec (str "serve") serveArgsFirst = true ∧
    matchSpec (str "serve") serveArgsSecond = true ∧
    findTargetStruct twoMatchFile (str "serve") = some (str "ServeArgsV2", []) ∧
    str "ServeArgsV2" ≠ str "ServeArgs" := by decide

/-- C2: among the comma-separated tokens after the first, every token whose
trimmed form has byte length exactly 1 sets the short flag, and the last
such token decides the final short flag — later single-character tokens
overwrite earlier ones. -/
theorem shortFlag_set_to_last_single_char_token
    (n ty tag v p0 : Str) (pre post : List Str) (t : Str)
    (htag : tag ≠ [])
    (hv : extractTag tag (str "cli") = v)
    (hsplit : splitOnChar ',' v = p0 :: (pre ++ t :: post))
    (ht : goLen (trimSpace t) = 1)
    (hpost : ∀ u ∈ post, goLen (trimSpace u) ≠ 1) :
    (parseFieldTag n ty tag).shortFlag = trimSpace t := by
  have hvne : v ≠ [] := by
    intro hveq
    rw [hveq, splitOnChar_nil] at hsplit
    simp at hsplit
  rw [parseFieldTag_eq_foldl n ty tag v p0 (pre ++ t :: post) htag hv hvne hsplit,
    List.foldl_append, List.foldl_cons,
    foldl_shortFlag_preserved post _ hpost,
    applyPart_shortFlag_of_one _ t ht]

/-- Witness for C2 at the annotation `cli:"name,a,b"`: two single-character
tokens, the later (`b`) wins. -/
theorem shortFlag_last_single_char_witness :
    (parseFieldTag (str "F") (str "string") (str "cli:\"name,a,b\"")).shortFlag =
      str "b" := by
  have h := shortFlag_set_to_last_single_char_token (str "F") (str "string")
    (str "cli:\"name,a,b\"") (str "name,a,b") (str "name") [str "a"] [] (str "b")
    (by decide) (by decide) (by decide) (by decide) (by intro u hu; cases hu)
  rw [h]
  decide

/-- C3: the directive parser is a total function — its Go original returns
a bare `FieldInfo`, with no error path — and a non-initial token matching
none of the five directive patterns is dropped without affecting anything
else: two annotations whose `cli` values differ exactly by such a token
parse to identical descriptors. -/
theorem parseFieldTag_never_fails_unrecognized_dropped
    (n ty tag tag' v v' p0 : Str) (pre post : List Str) (t : Str)
    (htag : tag ≠ []) (htag' : tag' ≠ [])
    (hv : extractTag tag (str "cli") = v)
    (hv' : extractTag tag' (str "cli") = v')
    (hsplit : splitOnChar ',' v = p0 :: (pre ++ t :: post))
    (hsplit' : splitOnChar ',' v' = p0 :: (pre ++ post))
    (h1 : goLen (trimSpace t) ≠ 1)
    (h2 : goHasPref (str "default:") (trimSpace t) = false)
    (h3 : trimSpace t ≠ str "required")
    (h4 : goHasPref (str "options:") (trimSpace t) = false)
    (h5 : goHasPref (str "usage:") (trimSpace t) = false) :
    parseFieldTag n ty tag = parseFieldTag n ty tag' := by
  have hvne : v ≠ [] := by
    intro hveq
    rw [hveq, splitOnChar_nil] at hsplit
    simp at hsplit
  have hdrop : ∀ f0 : FieldInfo,
      (pre ++ t :: post).foldl applyPart f0 = (pre ++ post).foldl applyPart f0 := by
    intro f0
    rw [List.foldl_append, List.foldl_append, List.foldl_cons,
      applyPart_unrecognized _ t h1 h2 h3 h4 h5]
  by_cases hv'e : v' = []
  · rw [hv'e, splitOnChar_nil] at hsplit'
    have hp0 : p0 = [] ∧ pre ++ post = [] := by simpa using hsplit'
    have hpre : pre = [] := (List.append_eq_nil.mp hp0.2).1
    have hpost : post = [] := (List.append_eq_nil.mp hp0.2).2
    rw [parseFieldTag_eq_foldl n ty tag v p0 (pre ++ t :: post) htag hv hvne hsplit,
      hdrop, hpre, hpost]
    rw [hp0.1]
    simp only [ne_eq, not_true_eq_false, if_false, List.nil_append, List.foldl_nil]
    unfold parseFieldTag
    rw [if_neg htag', hv', if_pos hv'e]
  · rw [parseFieldTag_eq_foldl n ty tag v p0 (pre ++ t :: post) htag hv hvne hsplit,
      parseFieldTag_eq_foldl n ty tag' v' p0 (pre ++ post) htag' hv' hv'e hsplit',
      hdrop]

/-- Witness for C3: the annotation `cli:"name,bogus,p"` parses exactly as
`cli:"name,p"` — the unrecognized token `bogus` is dropped. -/
theorem parseFieldTag_unrecognized_dropped_witness :
    parseFieldTag (str "F") (str "string") (str "cli:\"name,bogus,p\"") =
      parseFieldTag (str "F") (str "string") (str "cli:\"name,p\"") :=
  parseFieldTag_never_fails_unrecognized_dropped (str "F") (str "string")
    (str "cli:\"name,bogus,p\"") (str "cli:\"name,p\"")
    (str "name,bogus,p") (str "name,p") (str "name") [] [str "p"] (str "bogus")
    (by decide) (by decide) (by decide) (by decide) (by decide) (by decide)
    (by decide) (by decide) (by decide) (by decide) (by decide)

/-- Looking up the path just written finds the written contents. -/
theorem fsLookup_fsWrite_same (fs : FS) (p c : Str) :
    fsLookup (fsWrite fs p c) p = some c := by
  simp [fsLookup, fsWrite, List.find?]

/-- C4: when the implementation-stub path already exists, the stub
generator returns immediately with no error and the file system — in
particular the existing stub — is untouched; consequently a second run
against the same command never overwrites the stub the first run saw.
The rendered stub text is universally quantified (`content`, `content'`),
so the property holds for every possible template. -/
theorem stub_existing_not_overwritten (content content' : Str) (fs : FS)
    (outF cmd : Str)
    (h : (fsLookup fs (implStubPath outF cmd)).isSome = true) :
    generateImplementationStub content fs outF cmd = (fs, none) ∧
    generateImplementationStub content'
        (generateImplementationStub content fs outF cmd).1 outF cmd =
      ((generateImplementationStub content fs outF cmd).1, none) := by
  refine ⟨?_, ?_⟩ <;> simp [generateImplementationStub, h]

/-- Witness for C4: a file system already holding a stub for `serve`. -/
theorem stub_existing_not_overwritten_witness :
    generateImplementationStub (str "new contents")
        [(implStubPath (str "cmd/serve/main.go") (str "serve"), str "old stub")]
        (str "cmd/serve/main.go") (str "serve") =
      ([(implStubPath (str "cmd/serve/main.go") (str "serve"), str "old stub")],
        none) :=
  (stub_existing_not_overwritten (str "new contents") (str "x")
    [(implStubPath (str "cmd/serve/main.go") (str "serve"), str "old stub")]
    (str "cmd/serve/main.go") (str "serve") (by decide)).1

/-- C5: the emitter is deterministic — after a generation run, the output
file holds exactly the template rendering of the command, help string and
descriptor list, independent of any prior file-system state; hence two
runs on identical descriptor input produce byte-identical front-end
output. -/
theorem emitter_output_deterministic (fs1 fs2 : FS) (cmd help sName : Str)
    (fields : List FieldInfo) (outF : Str) :
    fsLookup (generateCLICode fs1 cmd help sName fields outF).1 outF =
      fsLookup (generateCLICode fs2 cmd help sName fields outF).1 outF ∧
    fsLookup (generateCLICode fs1 cmd help sName fields outF).1 outF =
      some (renderCLITemplate cmd help fields) := by
  refine ⟨?_, ?_⟩ <;> simp [generateCLICode, fsLookup_fsWrite_same]

/-- C6: the claim says every token, including token 0, is trimmed before
use.  Token 0 is in fact used verbatim: the annotation `cli:" name"` yields
the CLI flag name `" name"` (leading space kept), not `"name"`. -/
theorem token0_not_trimmed_cex :
    (parseFieldTag (str "X") (str "string") (str "cli:\" name\"")).cliName =
      str " name" ∧
    (parseFieldTag (str "X") (str "string") (str "cli:\" name\"")).cliName ≠
      str "name" := by decide

/-- C6 as amended: tokens after the first are whitespace-trimmed before
classification (`applyPart` classifies the trimmed token), while a
non-empty token 0 becomes the CLI flag name verbatim, untrimmed. -/
theorem token0_verbatim_rest_trimmed (n ty tag v p0 : Str) (rest : List Str)
    (htag : tag ≠ []) (hv : extractTag tag (str "cli") = v) (hvne : v ≠ [])
    (hsplit : splitOnChar ',' v = p0 :: rest) (hp0 : p0 ≠ []) :
    (parseFieldTag n ty tag).cliName = p0 ∧
    ∀ (f : FieldInfo) (u : Str), applyPart f u = classifyPart f (trimSpace u) := by
  refine ⟨?_, fun f u => rfl⟩
  rw [parseFieldTag_eq_foldl n ty tag v p0 rest htag hv hvne hsplit,
    foldl_applyPart_cliName, if_pos hp0]

/-- Witness for C6's amended claim at the annotation `cli:" name"`. -/
theorem token0_verbatim_witness :
    (parseFieldTag (str "X") (str "string") (str "cli:\" name\"")).cliName =
      str " name" :=
  (token0_verbatim_rest_trimmed (str "X") (str "string") (str "cli:\" name\"")
    (str " name") (str " name") [] (by decide) (by decide) (by decide)
    (by decide) (by decide)).1

/-- C7: an empty raw annotation, an annotation without the `cli` key, or an
empty `cli` value all produce the pure default descriptor: CLI name equal
to the lowercased field name, empty short flag, empty default, not
required, no allowed values, no help or usage text. -/
theorem empty_or_missing_tag_default_descriptor (n ty tag : Str)
    (h : tag = [] ∨ extractTag tag (str "cli") = []) :
    parseFieldTag n ty tag =
      { name := n, type := ty, cliName := goToLower n, shortFlag := [],
        defaultValue := [], required := false, options := [], help := [],
        usage := [] } := by
  rcases h with h | h
  · rw [h]
    rfl
  · by_cases htag : tag = []
    · rw [htag]
      rfl
    · unfold parseFieldTag
      rw [if_neg htag, h, if_pos rfl]
      rfl

/-- Witness for C7 at a tag that carries only a `json` key. -/
theorem empty_or_missing_tag_witness :
    parseFieldTag (str "Tags") (str "[]string") (str "json:\"tags\"") =
      { name := str "Tags", type := str "[]string", cliName := str "tags",
        shortFlag := [], defaultValue := [], required := false, options := [],
        help := [], usage := [] } := by
  have h := empty_or_missing_tag_default_descriptor (str "Tags") (str "[]string")
    (str "json:\"tags\"") (Or.inr (by decide))
  rw [h]
  decide

/-- C8: the field walker skips a field with no explicit name entirely, and
declared-type resolution maps an identifier to its literal name, an array
type to `[]` prefixed to the element's resolution, a star type to `*`
prefixed to the pointee's resolution, and every other shape to the
placeholder `interface{}`. -/
theorem anonymous_skipped_and_type_resolution (f : GoField) (rest : List GoField)
    (h : f.names = []) :
    parseStructFields (f :: rest) = parseStructFields rest ∧
    (∀ nm, getTypeString (.ident nm) = nm) ∧
    (∀ e, getTypeString (.array e) = str "[]" ++ getTypeString e) ∧
    (∀ e, getTypeString (.star e) = str "*" ++ getTypeString e) ∧
    getTypeString .other = str "interface\x7b\x7d" :=
  ⟨by simp [parseStructFields, h], fun nm => rfl, fun e => rfl, fun e => rfl, rfl⟩

/-- Witness for C8: an anonymous (embedded) field contributes no
descriptor. -/
theorem anonymous_skipped_witness :
    parseStructFields [{ names := [], type := .ident (str "Base"), tag := none }] =
      parseStructFields [] :=
  (anonymous_skipped_and_type_resolution
    { names := [], type := .ident (str "Base"), tag := none } [] rfl).1

/-- C9: the claim says any `default:X` token fixes the default value to
`X`.  With two such tokens the later one wins: on `cli:"n,default:a,default:b"`
the token `default:a` is present, yet the default value is `b`, not `a`. -/
theorem default_last_wins_cex :
    splitOnChar ','
        (extractTag (str "cli:\"n,default:a,default:b\"") (str "cli")) =
      [str "n", str "default:a", str "default:b"] ∧
    (parseFieldTag (str "F") (str "string")
        (str "cli:\"n,default:a,default:b\"")).defaultValue = str "b" ∧
    str "b" ≠ str "a" := by decide

/-- C9 as amended: the default value equals, verbatim — no unescaping, no
trimming inside the token — the remainder `X` of the **last** non-initial
token whose trimmed form is `default:X`. -/
theorem defaultValue_last_default_verbatim
    (n ty tag v p0 : Str) (pre post : List Str) (t X : Str)
    (htag : tag ≠ [])
    (hv : extractTag tag (str "cli") = v)
    (hsplit : splitOnChar ',' v = p0 :: (pre ++ t :: post))
    (ht : trimSpace t = str "default:" ++ X)
    (hpost : ∀ u ∈ post, goHasPref (str "default:") (trimSpace u) = false) :
    (parseFieldTag n ty tag).defaultValue = X := by
  have hvne : v ≠ [] := by
    intro hveq
    rw [hveq, splitOnChar_nil] at hsplit
    simp at hsplit
  rw [parseFieldTag_eq_foldl n ty tag v p0 (pre ++ t :: post) htag hv hvne hsplit,
    List.foldl_append, List.foldl_cons,
    foldl_defaultValue_preserved post _ hpost,
    applyPart_defaultValue_set _ t X ht]

/-- Witness for C9's amended claim: `default:a b` keeps the internal space
verbatim. -/
theorem defaultValue_verbatim_witness :
    (parseFieldTag (str "F") (str "string")
        (str "cli:\"n,default:a b\"")).defaultValue = str "a b" := by
  have h := defaultValue_last_default_verbatim (str "F") (str "string")
    (str "cli:\"n,default:a b\"") (str "n,default:a b") (str "n") [] []
    (str "default:a b") (str "a b")
    (by decide) (by decide) (by decide) (by decide)
    (by intro u hu; cases hu)
  exact h

/-- C10: directive classification applies only to tokens after the first —
the parse result is the classification fold over the tail tokens, started
from the default descriptor whose CLI name is token 0 verbatim, so a
directive-shaped token 0 (such as `required` or `default:X`) only names the
flag and sets no attribute. -/
theorem token0_never_classified (n ty tag v t0 : Str) (rest : List Str)
    (htag : tag ≠ []) (hv : extractTag tag (str "cli") = v) (hvne : v ≠ [])
    (hsplit : splitOnChar ',' v = t0 :: rest) (ht0 : t0 ≠ []) :
    parseFieldTag n ty tag =
      rest.foldl applyPart { defaultFieldInfo n ty with cliName := t0 } := by
  rw [parseFieldTag_eq_foldl n ty tag v t0 rest htag hv hvne hsplit, if_pos ht0]

/-- Witness for C10 at the annotation `cli:"required"`: the token becomes
the flag name and the required attribute stays false. -/
theorem token0_never_classified_witness :
    (parseFieldTag (str "F") (str "string") (str "cli:\"required\"")).cliName =
      str "required" ∧
    (parseFieldTag (str "F") (str "string") (str "cli:\"required\"")).required =
      false := by
  have h := token0_never_classified (str "F") (str "string")
    (str "cli:\"required\"") (str "required") (str "required") []
    (by decide) (by decide) (by decide) (by decide) (by decide)
  rw [h]
  exact ⟨rfl, rfl⟩
